import Mathlib

/-!
Verification development for the texture-expansion pipeline
(services/imageProcessing.ts and types.ts).

The canvas 2D drawing model is shallowly embedded as follows.

* A pixel is premultiplied RGBA with exact rational channels (the browser
  quantizes to 8 bits per channel; compositing arithmetic is modelled
  exactly, which is the idealization the spec's "pixel-identical"
  statements are about).
* A surface is a width, a height and a total pixel function; `createCanvas`
  yields the transparent zero-initialized buffer.
* `drawImageRect` embeds `ctx.drawImage(src, sx, sy, sw, sh, dx, dy, sw, sh)`
  at integer coordinates and 1:1 scale: the source rectangle is clipped to
  the source image (the destination shrinking in the same proportion, which
  at 1:1 scale is the same clipping), the destination is clipped to the
  canvas, and every written pixel is source-over composited.
* Draws whose position or size is fractional (the feathered centre patch of
  the Scattered method and the thirty random patches of the PatchBased
  method) are embedded by their footprint: a pixel cell [p, p+1) x [q, q+1)
  can be affected only if it meets the destination rectangle, and the value
  produced on affected pixels by the browser's resampling and gradient
  rasterization is an arbitrary parameter (`patchRaster`).  Theorems that
  quantify over these parameters therefore hold for any conforming
  rasterizer.
-/

/-- Premultiplied RGBA pixel with exact rational channels. -/
structure Pixel where
  r : ℚ
  g : ℚ
  b : ℚ
  a : ℚ
deriving DecidableEq

/-- The transparent pixel of a freshly allocated canvas. -/
def Pixel.zero : Pixel := ⟨0, 0, 0, 0⟩

/-- Source-over compositing of premultiplied pixels: the default
`globalCompositeOperation` of every `drawImage` in the source. -/
def Pixel.over (s d : Pixel) : Pixel :=
  ⟨s.r + d.r * (1 - s.a), s.g + d.g * (1 - s.a), s.b + d.b * (1 - s.a),
   s.a + d.a * (1 - s.a)⟩

/-- Scaling a premultiplied pixel by a coefficient: the effect of
`globalAlpha` (and of antialiased partial coverage) on a composited source. -/
def Pixel.scale (k : ℚ) (p : Pixel) : Pixel := ⟨k * p.r, k * p.g, k * p.b, k * p.a⟩

/-- Componentwise sum of premultiplied pixels (used to express the blur
kernel average). -/
def Pixel.add (x y : Pixel) : Pixel := ⟨x.r + y.r, x.g + y.g, x.b + y.b, x.a + y.a⟩

/-- A canvas: an addressable 2D pixel buffer.  `pix` is total; only the
indices below `width` and `height` are meaningful. -/
structure Surface where
  width : ℕ
  height : ℕ
  pix : ℕ → ℕ → Pixel

/-- `createCanvas(w, h)`: a zero-initialized transparent buffer. -/
def createCanvas (w h : ℕ) : Surface := ⟨w, h, fun _ _ => Pixel.zero⟩

/-- Embedding of `ctx.drawImage(src, sx, sy, sw, sh, dx, dy, sw, sh)` at
integer coordinates and 1:1 scale on the destination `dst`: the source
rectangle is clipped to the source image (shrinking the destination in the
same proportion, which at 1:1 scale is the same amount), the destination is
clipped to the canvas, and each written pixel is source-over composited.
`drawImage(src, dx, dy)` is the case `sx = sy = 0`, `sw = src.width`,
`sh = src.height`. -/
def drawImageRect (dst src : Surface) (sx sy sw sh dx dy : ℕ) : Surface :=
  { dst with
    pix := fun p q =>
      if dx ≤ p ∧ p < dx + min sw (src.width - sx) ∧
         dy ≤ q ∧ q < dy + min sh (src.height - sy) ∧
         p < dst.width ∧ q < dst.height then
        Pixel.over (src.pix (sx + (p - dx)) (sy + (q - dy))) (dst.pix p q)
      else dst.pix p q }

/-- `Math.round(w / 2)` on a natural number: `w/2` rounded half away from
zero, which is `(w + 1) / 2` in integer arithmetic (so it rounds UP for odd
`w`, it does not floor). -/
def halfRound (w : ℕ) : ℕ := (w + 1) / 2

/-- Step 1 of `generateScattered` (torus shift): the four quadrant blits
`TL→BR`, `TR→BL`, `BL→TR`, `BR→TL`, each of size `halfRound w × halfRound h`,
drawn in source order onto a fresh canvas. -/
def quadrantSwap (src : Surface) : Surface :=
  let w := src.width
  let h := src.height
  let hw := halfRound w
  let hh := halfRound h
  let c0 := createCanvas w h
  let c1 := drawImageRect c0 src 0 0 hw hh hw hh
  let c2 := drawImageRect c1 src hw 0 hw hh 0 hh
  let c3 := drawImageRect c2 src 0 hh hw hh hw 0
  drawImageRect c3 src hw hh hw hh 0 0

/-- Indicator that the blit `drawImage(src, sx, sy, sw, sh, dx, dy, sw, sh)`
writes the destination pixel `(p, q)` of a canvas of size
`dst.width × dst.height`; this is exactly the write condition of
`drawImageRect`. -/
def writesAt (dst src : Surface) (sx sy sw sh dx dy p q : ℕ) : ℕ :=
  if dx ≤ p ∧ p < dx + min sw (src.width - sx) ∧
     dy ≤ q ∧ q < dy + min sh (src.height - sy) ∧
     p < dst.width ∧ q < dst.height then 1 else 0

/-- How many of the four quadrant blits of the torus-shift step of
`generateScattered` write the output pixel `(p, q)`. -/
def countWrites (src : Surface) (p q : ℕ) : ℕ :=
  let w := src.width
  let h := src.height
  let hw := halfRound w
  let hh := halfRound h
  let c := createCanvas w h
  writesAt c src 0 0 hw hh hw hh p q + writesAt c src hw 0 hw hh 0 hh p q +
    writesAt c src 0 hh hw hh hw 0 p q + writesAt c src hw hh hw hh 0 0 p q

/-- Footprint of `ctx.drawImage(img, dx, dy)` for an image of integer size
`dw × dh` drawn at the possibly fractional position `(dx, dy)`: the pixel
cell `[p, p+1) × [q, q+1)` can be affected only if it meets the destination
rectangle `[dx, dx+dw) × [dy, dy+dh)`.  When `dx, dy` are integers this is
exactly the written rectangle of `drawImageRect`. -/
def inDrawFootprint (dx dy : ℚ) (dw dh : ℤ) (p q : ℕ) : Prop :=
  dx - 1 < (p : ℚ) ∧ (p : ℚ) < dx + (dw : ℚ) ∧ dy - 1 < (q : ℚ) ∧ (q : ℚ) < dy + (dh : ℚ)

instance (dx dy : ℚ) (dw dh : ℤ) (p q : ℕ) : Decidable (inDrawFootprint dx dy dw dh p q) := by
  unfold inDrawFootprint
  exact inferInstance

/-- `blendSizeW = w * 0.7` of `generateScattered` (and `blendSizeH` for the
height): the centre patch covers 70% of the dimension.  The canvases holding
the patch and its mask truncate this size to an integer
(`canvas.width` is an integral reflected attribute), hence the `⌊·⌋` at use
sites. -/
def blendSize (w : ℕ) : ℚ := (w : ℚ) * (7 / 10)

/-- `blendX = (w - blendSizeW) / 2` of `generateScattered`: the offset that
centres the 70% patch, so the patch keeps off the outer 15% of each side. -/
def blendPos (w : ℕ) : ℚ := ((w : ℚ) - blendSize w) / 2

/-- Embedding of `generateScattered`: the four-quadrant torus shift followed
by the feather-masked centre patch (70% of the surface, radial gradient
mask, pasted source-over at `(blendX, blendY)`).  The patch is drawn at a
generally fractional position, so its effect is embedded by its footprint:
pixels whose cell meets the patch rectangle take the value of the abstract
rasterizer `patchRaster`, every other pixel keeps the torus-shifted value. -/
def generateScattered (src : Surface) (patchRaster : ℕ → ℕ → Pixel) : Surface :=
  let base := quadrantSwap src
  { base with
    pix := fun p q =>
      if inDrawFootprint (blendPos src.width) (blendPos src.height)
          ⌊blendSize src.width⌋ ⌊blendSize src.height⌋ p q then
        patchRaster p q
      else base.pix p q }

/-- Embedding of `generateMirrored`.  The source draws the full source image
scaled down to `(w/2, h/2)` four times: unflipped into the top-left,
X-flipped into the right half (`translate(w,0); scale(-1,1)`), Y-flipped
into the bottom half, and XY-flipped into the bottom-right.  The browser's
downscaling resampler is abstracted as `scaleHalf src`, the scaled image's
pixel grid.  A flipped draw writes at column `x` the sample the unflipped
draw writes at column `w - 1 - x` (reflection about the vertical centre line
`x = w/2` maps the pixel cell `[x, x+1)` onto `[w-1-x, w-x)`), and likewise
for rows, so pixel `(x, y)` holds the scaled sample at
`(min x (w-1-x), min y (h-1-y))`. -/
def generateMirrored (src : Surface) (scaleHalf : Surface → ℕ → ℕ → Pixel) : Surface :=
  ⟨src.width, src.height, fun x y =>
    scaleHalf src (min x (src.width - 1 - x)) (min y (src.height - 1 - y))⟩

/-- `minPatchSize = Math.min(w, h) * 0.2` of `generatePatchBased`. -/
def patchMinSize (w h : ℕ) : ℚ := (min w h : ℕ) * (2 / 10)

/-- `maxPatchSize = Math.min(w, h) * 0.5` of `generatePatchBased`. -/
def patchMaxSize (w h : ℕ) : ℚ := (min w h : ℕ) * (5 / 10)

/-- The random size of patch `i`:
`size = minPatchSize + Math.random() * (maxPatchSize - minPatchSize)`.
Iteration `i` consumes the random draws `5i .. 5i+4` in source order
(`size`, `sx`, `sy`, `dx`, `dy`); `rand` is the stream of `Math.random()`
results, each in `[0, 1)`. -/
def patchSize (w h : ℕ) (rand : ℕ → ℚ) (i : ℕ) : ℚ :=
  patchMinSize w h + rand (5 * i) * (patchMaxSize w h - patchMinSize w h)

/-- The destination x of patch `i`: `dx = 10 + Math.random() * (w - size - 20)`. -/
def patchDx (w h : ℕ) (rand : ℕ → ℚ) (i : ℕ) : ℚ :=
  10 + rand (5 * i + 3) * ((w : ℚ) - patchSize w h rand i - 20)

/-- The destination y of patch `i`: `dy = 10 + Math.random() * (h - size - 20)`. -/
def patchDy (w h : ℕ) (rand : ℕ → ℚ) (i : ℕ) : ℚ :=
  10 + rand (5 * i + 4) * ((h : ℚ) - patchSize w h rand i - 20)

/-- One iteration of the patch loop of `generatePatchBased`: on iteration 0
the Scattered base is first drawn source-over across the whole canvas
("initialize with scattered base for edge continuity"); then the feathered
patch canvas, of truncated integer size `⌊size⌋ × ⌊size⌋`, is pasted
source-over at the fractional position `(dx, dy)`.  As with the Scattered
centre patch, the pasted patch is embedded by its footprint with the
abstract rasterizer `patchRasters i` supplying the values of affected
pixels (the random source origin `sx, sy` — draws `5i+1`, `5i+2` — and the
radial mask only influence those values, so they are absorbed into the
rasterizer). -/
def patchStep (src base : Surface) (patchRasters : ℕ → ℕ → ℕ → Pixel) (rand : ℕ → ℚ)
    (out : Surface) (i : ℕ) : Surface :=
  let out1 := if i = 0 then drawImageRect out base 0 0 base.width base.height 0 0 else out
  let size := patchSize src.width src.height rand i
  let dx := patchDx src.width src.height rand i
  let dy := patchDy src.width src.height rand i
  { out1 with
    pix := fun p q =>
      if inDrawFootprint dx dy ⌊size⌋ ⌊size⌋ p q then patchRasters i p q
      else out1.pix p q }

/-- Embedding of `generatePatchBased`: the canvas is first filled with a
full copy of the source (`ctx.drawImage(srcCanvas, 0, 0)`), then the loop
runs `patchCount = 30` iterations of `patchStep` (the Scattered base is
composited at the start of iteration 0, before patch 0 is pasted).
`scatterRaster` is the abstract rasterizer of the Scattered base's own
centre patch. -/
def generatePatchBased (src : Surface) (scatterRaster : ℕ → ℕ → Pixel)
    (patchRasters : ℕ → ℕ → ℕ → Pixel) (rand : ℕ → ℚ) : Surface :=
  let base := generateScattered src scatterRaster
  (List.range 30).foldl (patchStep src base patchRasters rand)
    (drawImageRect (createCanvas src.width src.height) src 0 0 src.width src.height 0 0)

/-- `CropSettings` of types.ts: pixels to remove from each edge. -/
structure CropSettings where
  top : ℕ
  bottom : ℕ
  left : ℕ
  right : ℕ

/-- Embedding of `applyCrop`: computes `newWidth = width - left - right` and
`newHeight = height - top - bottom` (in exact integer arithmetic, as
JavaScript numbers can go negative), returns `null` when either is not
positive, and otherwise blits the interior rectangle at `(left, top)` of
that size onto a fresh canvas at `(0, 0)`. -/
def applyCrop (s : Surface) (crop : CropSettings) : Option Surface :=
  let newWidth : ℤ := (s.width : ℤ) - crop.left - crop.right
  let newHeight : ℤ := (s.height : ℤ) - crop.top - crop.bottom
  if newWidth ≤ 0 ∨ newHeight ≤ 0 then none
  else
    some (drawImageRect (createCanvas newWidth.toNat newHeight.toNat) s crop.left crop.top
      newWidth.toNat newHeight.toNat 0 0)

/-- The pre-crop block of `processTexture` (step 2): `applyCrop` runs only
when some crop value is positive, and the current canvas is replaced only
when it returns a canvas rather than `null`. -/
def cropStage (s : Surface) (crop : CropSettings) : Surface :=
  if crop.top > 0 ∨ crop.bottom > 0 ∨ crop.left > 0 ∨ crop.right > 0 then
    match applyCrop s crop with
    | some cropped => cropped
    | none => s
  else s

/-- `AveragingSettings` of types.ts: `intensity` in 0..100, `radius` in 1..20. -/
structure AveragingSettings where
  intensity : ℚ
  radius : ℚ

/-- Embedding of `applyAveraging`.  The blur filter runs in the browser's
codec/filter machinery, so it enters as the parameter `blur`; everything
else follows the source: return the input unchanged when `intensity ≤ 0`,
otherwise draw the original onto a fresh output canvas, compute the blurred
copy, and draw it over the output with `globalAlpha = intensity / 100`
(source-over). -/
def applyAveraging (blur : Surface → ℚ → Surface) (canvas : Surface)
    (settings : AveragingSettings) : Surface :=
  if settings.intensity ≤ 0 then canvas
  else
    let w := canvas.width
    let h := canvas.height
    let outC := drawImageRect (createCanvas w h) canvas 0 0 w h 0 0
    let blurC := blur canvas settings.radius
    { outC with
      pix := fun p q =>
        if p < w ∧ q < h then
          Pixel.over (Pixel.scale (settings.intensity / 100) (blurC.pix p q)) (outC.pix p q)
        else outC.pix p q }

/-- The pre-averaging block of `processTexture` (step 3): `applyAveraging`
runs only when `intensity > 0`. -/
def averagingStage (blur : Surface → ℚ → Surface) (s : Surface)
    (averaging : AveragingSettings) : Surface :=
  if averaging.intensity > 0 then applyAveraging blur s averaging else s

/-- Reading a pixel with transparent-black padding outside the surface, the
boundary behaviour of the canvas blur filter. -/
def samplePix (s : Surface) (x y : ℤ) : Pixel :=
  if 0 ≤ x ∧ x < (s.width : ℤ) ∧ 0 ≤ y ∧ y < (s.height : ℤ) then s.pix x.toNat y.toNat
  else Pixel.zero

/-- Modelled from the spec: the "Gaussian-equivalent box/Gaussian blur of
the given radius" of §4.2 (the browser's `filter = blur(...)`, which is not
code of this repository), taken as the box blur of window `2·radius + 1`
with transparent padding outside the image; like the CSS filter it operates
on premultiplied RGBA, so it blurs the alpha channel too. -/
def boxBlur (canvas : Surface) (radius : ℚ) : Surface :=
  let r := (⌊radius⌋).toNat
  let n := 2 * r + 1
  { canvas with
    pix := fun p q =>
      Pixel.scale (1 / ((n * n : ℕ) : ℚ))
        ((List.range n).foldl
          (fun acc i =>
            (List.range n).foldl
              (fun acc2 j => Pixel.add acc2 (samplePix canvas ((p : ℤ) + i - r) ((q : ℤ) + j - r)))
              acc)
          Pixel.zero) }

/-- Row-major cell traversal of `generateTilePreview`: `r` is the outer
loop, `c` the inner one. -/
def cellList (n : ℕ) : List (ℕ × ℕ) :=
  (List.range n).flatMap fun r => (List.range n).map fun c => (r, c)

/-- Length of the overlap of the pixel cell `[p, p+1)` with the interval
`[a, b]`. -/
def coverLen (p : ℕ) (a b : ℚ) : ℚ := max 0 (min ((p : ℚ) + 1) b - max (p : ℚ) a)

/-- Area of the overlap of the pixel cell with the rectangle
`[x0, x1] × [y0, y1]`. -/
def rectCoverArea (x0 x1 y0 y1 : ℚ) (p q : ℕ) : ℚ := coverLen p x0 x1 * coverLen q y0 y1

/-- Fraction of the pixel cell `(p, q)` covered by
`ctx.strokeRect(x, y, w, h)` with `lineWidth = 1`: the stroke paints the
frame that straddles the rectangle path by half the line width on each
side, i.e. the outer rectangle grown by 1/2 minus the inner rectangle
shrunk by 1/2. -/
def strokeCoverage (x y w h p q : ℕ) : ℚ :=
  rectCoverArea ((x : ℚ) - 1 / 2) ((x : ℚ) + (w : ℚ) + 1 / 2)
      ((y : ℚ) - 1 / 2) ((y : ℚ) + (h : ℚ) + 1 / 2) p q -
    rectCoverArea ((x : ℚ) + 1 / 2) ((x : ℚ) + (w : ℚ) - 1 / 2)
      ((y : ℚ) + 1 / 2) ((y : ℚ) + (h : ℚ) - 1 / 2) p q

/-- `strokeStyle = rgba(255, 0, 0, 0.5)` as a premultiplied pixel. -/
def strokeColor : Pixel := ⟨1 / 2, 0, 0, 1 / 2⟩

/-- Embedding of `ctx.strokeRect(x, y, w, h)` with `lineWidth = 1` and the
translucent red stroke style: each in-bounds pixel receives the stroke
colour source-over, scaled by its antialiased coverage. -/
def applyStroke (s : Surface) (x y w h : ℕ) : Surface :=
  { s with
    pix := fun p q =>
      if p < s.width ∧ q < s.height then
        Pixel.over (Pixel.scale (strokeCoverage x y w h p q) strokeColor) (s.pix p q)
      else s.pix p q }

/-- One loop body of `generateTilePreview`: blit the texture into cell
`(r, c)`, then, when `markSeams` is set, stroke that cell's boundary
rectangle immediately (the stroke happens inside the loop, after this
cell's blit but before the later cells' blits). -/
def tileCellStep (tex : Surface) (markSeams : Bool) (acc : Surface) (rc : ℕ × ℕ) : Surface :=
  let blitted := drawImageRect acc tex 0 0 tex.width tex.height (rc.2 * tex.width)
    (rc.1 * tex.height)
  if markSeams then
    applyStroke blitted (rc.2 * tex.width) (rc.1 * tex.height) tex.width tex.height
  else blitted

/-- Embedding of `generateTilePreview`: an `N × N` canvas filled by the
row-major loop of `tileCellStep`. -/
def generateTilePreview (tex : Surface) (tileFormat : ℕ) (markSeams : Bool) : Surface :=
  (cellList tileFormat).foldl (tileCellStep tex markSeams)
    (createCanvas (tex.width * tileFormat) (tex.height * tileFormat))

/-- Modelled from the spec: "If `markSeams`, draws a 1px translucent
boundary rectangle (50% opacity) around every cell after all blits" — the
same cells and the same stroke, but every blit performed before any stroke. -/
def tilePreviewStrokesAfter (tex : Surface) (tileFormat : ℕ) (markSeams : Bool) : Surface :=
  let blitted := (cellList tileFormat).foldl
    (fun acc rc => drawImageRect acc tex 0 0 tex.width tex.height (rc.2 * tex.width)
      (rc.1 * tex.height))
    (createCanvas (tex.width * tileFormat) (tex.height * tileFormat))
  if markSeams then
    (cellList tileFormat).foldl
      (fun acc rc => applyStroke acc (rc.2 * tex.width) (rc.1 * tex.height) tex.width tex.height)
      blitted
  else blitted

/-- The string constants of the `SeamlessMethod` enum of types.ts (a
TypeScript string enum, so a method value is a string at runtime). -/
def SeamlessMethod.MIRRORED : String := "mirrored"

/-- `SeamlessMethod.SCATTERED = "scattered"`. -/
def SeamlessMethod.SCATTERED : String := "scattered"

/-- `SeamlessMethod.PATCH_BASED = "patch_based"`. -/
def SeamlessMethod.PATCH_BASED : String := "patch_based"

/-- The strategy switch of `processTexture` (step 4): `MIRRORED` and
`PATCH_BASED` select their strategies; `SCATTERED` and the `default` label
share the remaining branch, so every other value selects Scattered. -/
def chooseSeamless (method : String) (working : Surface)
    (scaleHalf : Surface → ℕ → ℕ → Pixel) (patchRaster : ℕ → ℕ → Pixel)
    (scatterRaster : ℕ → ℕ → Pixel) (patchRasters : ℕ → ℕ → ℕ → Pixel)
    (rand : ℕ → ℚ) : Surface :=
  if method = SeamlessMethod.MIRRORED then generateMirrored working scaleHalf
  else if method = SeamlessMethod.PATCH_BASED then
    generatePatchBased working scatterRaster patchRasters rand
  else generateScattered working patchRaster

/-- `ProcessResult` of types.ts; the two data-URL strings are represented by
the surfaces they encode, since the encoder is an external codec. -/
structure ProcessResult where
  seamless : Surface
  preview : Surface
  width : ℕ
  height : ℕ

/-- Embedding of `processTexture` after the asynchronous image decode:
draw the decoded image onto a base canvas, run the pre-crop block, the
pre-averaging block, the strategy switch, and the tile preview, and package
the result with the seamless canvas's dimensions.  The encoder (step 6) is
external and keeps no pixel information of its own.  The model is a pure
function: no stage mutates its input surface. -/
def processTexture (img : Surface) (method : String) (tileFormat : ℕ) (markSeams : Bool)
    (crop : CropSettings) (averaging : AveragingSettings) (blur : Surface → ℚ → Surface)
    (scaleHalf : Surface → ℕ → ℕ → Pixel) (patchRaster : ℕ → ℕ → Pixel)
    (scatterRaster : ℕ → ℕ → Pixel) (patchRasters : ℕ → ℕ → ℕ → Pixel)
    (rand : ℕ → ℚ) : ProcessResult :=
  let base := drawImageRect (createCanvas img.width img.height) img 0 0 img.width img.height 0 0
  let c1 := cropStage base crop
  let c2 := averagingStage blur c1 averaging
  let seamless := chooseSeamless method c2 scaleHalf patchRaster scatterRaster patchRasters rand
  let preview := generateTilePreview seamless tileFormat markSeams
  ⟨seamless, preview, seamless.width, seamless.height⟩

/-- Test surface: opaque 4×4 black. -/
def mir4 : Surface := ⟨4, 4, fun _ _ => ⟨0, 0, 0, 1⟩⟩

/-- Test surface: opaque 3×3 white (only its odd dimensions matter). -/
def testSrc3 : Surface := ⟨3, 3, fun _ _ => ⟨1, 1, 1, 1⟩⟩

/-- Test surface: opaque 20×20 with a horizontal gray gradient, so adjacent
columns differ. -/
def gray20 : Surface := ⟨20, 20, fun x _ => ⟨(x : ℚ) / 20, 0, 0, 1⟩⟩

/-- Test surface: opaque 40×40 red except for one half-transparent pixel at
the centre (20, 20), which the torus shift moves to the output corner. -/
def redGhost40 : Surface :=
  ⟨40, 40, fun x y => if x = 20 ∧ y = 20 then ⟨1 / 4, 0, 0, 1 / 2⟩ else ⟨1, 0, 0, 1⟩⟩

/-- Test surface: opaque 40×40 white. -/
def white40 : Surface := ⟨40, 40, fun _ _ => ⟨1, 1, 1, 1⟩⟩

/-- Test surface: opaque 1×1 white. -/
def white1 : Surface := ⟨1, 1, fun _ _ => ⟨1, 1, 1, 1⟩⟩

/-- Test surface: opaque 2×2 green. -/
def green2 : Surface := ⟨2, 2, fun _ _ => ⟨0, 1, 0, 1⟩⟩

/-- A concrete half-scale resampler instance for witnesses (point sampling). -/
def idScale : Surface → ℕ → ℕ → Pixel := fun s x y => s.pix x y

/-- A concrete blur instance for witnesses (identity). -/
def idBlur : Surface → ℚ → Surface := fun s _ => s

/-- A concrete patch rasterizer instance for counterexamples and witnesses. -/
def noRaster : ℕ → ℕ → Pixel := fun _ _ => Pixel.zero

/-- A concrete per-patch rasterizer family for counterexamples and witnesses. -/
def noRasters : ℕ → ℕ → ℕ → Pixel := fun _ _ _ => Pixel.zero

/-- A concrete admissible `Math.random()` stream: constantly 1/2. -/
def halfRand : ℕ → ℚ := fun _ => 1 / 2

theorem Pixel.over_zero (s : Pixel) : Pixel.over s Pixel.zero = s := by
  cases s; simp [Pixel.over, Pixel.zero]

theorem Pixel.over_of_opaque (s d : Pixel) (h : s.a = 1) : Pixel.over s d = s := by
  cases s; cases d; simp_all [Pixel.over]

theorem Pixel.scale_zero (p : Pixel) : Pixel.scale 0 p = Pixel.zero := by
  cases p; simp [Pixel.scale, Pixel.zero]

theorem Pixel.scale_one (p : Pixel) : Pixel.scale 1 p = p := by
  cases p; simp [Pixel.scale]

theorem Pixel.zero_over (d : Pixel) : Pixel.over Pixel.zero d = d := by
  cases d; simp [Pixel.over, Pixel.zero]

theorem drawImageRect_width (dst src : Surface) (sx sy sw sh dx dy : ℕ) :
    (drawImageRect dst src sx sy sw sh dx dy).width = dst.width := rfl

theorem drawImageRect_height (dst src : Surface) (sx sy sw sh dx dy : ℕ) :
    (drawImageRect dst src sx sy sw sh dx dy).height = dst.height := rfl

/-- `ctx.drawImage(img, 0, 0)` for an image the size of the canvas
composites every in-bounds pixel source-over. -/
theorem drawImageRect_full_pix (dst src : Surface) (hw : dst.width ≤ src.width)
    (hh : dst.height ≤ src.height) (p q : ℕ) (hp : p < dst.width) (hq : q < dst.height) :
    (drawImageRect dst src 0 0 src.width src.height 0 0).pix p q =
      Pixel.over (src.pix p q) (dst.pix p q) := by
  unfold drawImageRect
  dsimp only
  rw [if_pos (by refine ⟨Nat.zero_le p, ?_, Nat.zero_le q, ?_, hp, hq⟩ <;> omega)]
  simp

/-- For even dimensions the four quadrant blits of the torus-shift step
amount to the exact half-period torus translation. -/
theorem quadrantSwap_pix_even (src : Surface) (hw2 : 2 ∣ src.width) (hh2 : 2 ∣ src.height)
    (p q : ℕ) (hp : p < src.width) (hq : q < src.height) :
    (quadrantSwap src).pix p q =
      src.pix ((p + src.width / 2) % src.width) ((q + src.height / 2) % src.height) := by
  obtain ⟨a, ha⟩ := hw2
  obtain ⟨b, hb⟩ := hh2
  have ha2 : 2 * a / 2 = a := by omega
  have hb2 : 2 * b / 2 = b := by omega
  have hmodp : (p + a) % (2 * a) = if p < a then p + a else p - a := by
    split
    · exact Nat.mod_eq_of_lt (by omega)
    · rw [Nat.mod_eq_sub_mod (by omega)]
      have h1 : p + a - 2 * a = p - a := by omega
      rw [h1]
      exact Nat.mod_eq_of_lt (by omega)
  have hmodq : (q + b) % (2 * b) = if q < b then q + b else q - b := by
    split
    · exact Nat.mod_eq_of_lt (by omega)
    · rw [Nat.mod_eq_sub_mod (by omega)]
      have h1 : q + b - 2 * b = q - b := by omega
      rw [h1]
      exact Nat.mod_eq_of_lt (by omega)
  unfold quadrantSwap drawImageRect createCanvas halfRound
  simp only [ha, hb, ha2, hb2, hmodp, hmodq]
  have hhw : (2 * a + 1) / 2 = a := by omega
  have hhh : (2 * b + 1) / 2 = b := by omega
  simp only [hhw, hhh]
  split_ifs <;>
    first
      | omega
      | (rw [Pixel.over_zero]; congr 1 <;> omega)

theorem quadrantSwap_width (src : Surface) : (quadrantSwap src).width = src.width := rfl

theorem quadrantSwap_height (src : Surface) : (quadrantSwap src).height = src.height := rfl

theorem generateScattered_width (src : Surface) (patchRaster : ℕ → ℕ → Pixel) :
    (generateScattered src patchRaster).width = src.width := rfl

theorem generateScattered_height (src : Surface) (patchRaster : ℕ → ℕ → Pixel) :
    (generateScattered src patchRaster).height = src.height := rfl

/-- The centre patch of `generateScattered` never reaches the outermost row
or column once the dimension is at least 7: `blendPos = 0.15·w ≥ 1` and
`blendPos + ⌊0.7·w⌋ ≤ 0.85·w ≤ w - 1`. -/
theorem border_not_in_scatter_footprint (w h p q : ℕ) (hw : 7 ≤ w) (hh : 7 ≤ h)
    (hb : p = 0 ∨ p = w - 1 ∨ q = 0 ∨ q = h - 1) :
    ¬ inDrawFootprint (blendPos w) (blendPos h) ⌊blendSize w⌋ ⌊blendSize h⌋ p q := by
  have hfw : (⌊blendSize w⌋ : ℚ) ≤ blendSize w := Int.floor_le _
  have hfh : (⌊blendSize h⌋ : ℚ) ≤ blendSize h := Int.floor_le _
  have hwq : (7 : ℚ) ≤ (w : ℚ) := by exact_mod_cast hw
  have hhq : (7 : ℚ) ≤ (h : ℚ) := by exact_mod_cast hh
  intro hf
  obtain ⟨h1, h2, h3, h4⟩ := hf
  rcases hb with rfl | rfl | rfl | rfl
  · rw [blendPos, blendSize] at h1
    push_cast at h1
    linarith
  · have hc : ((w - 1 : ℕ) : ℚ) = (w : ℚ) - 1 := by
      push_cast [Nat.cast_sub (by omega : 1 ≤ w)]
      ring
    rw [hc] at h2
    rw [blendPos] at h2
    rw [blendSize] at hfw
    rw [blendSize] at h2
    linarith
  · rw [blendPos, blendSize] at h3
    push_cast at h3
    linarith
  · have hc : ((h - 1 : ℕ) : ℚ) = (h : ℚ) - 1 := by
      push_cast [Nat.cast_sub (by omega : 1 ≤ h)]
      ring
    rw [hc] at h4
    rw [blendPos] at h4
    rw [blendSize] at hfh
    rw [blendSize] at h4
    linarith

/-- Outside the centre patch's footprint the Scattered output is the
torus-shifted surface; for dimensions at least 7 this covers every pixel of
the outermost rows and columns. -/
theorem generateScattered_pix_border (src : Surface) (patchRaster : ℕ → ℕ → Pixel)
    (hw7 : 7 ≤ src.width) (hh7 : 7 ≤ src.height) (p q : ℕ)
    (hb : p = 0 ∨ p = src.width - 1 ∨ q = 0 ∨ q = src.height - 1) :
    (generateScattered src patchRaster).pix p q = (quadrantSwap src).pix p q := by
  unfold generateScattered
  dsimp only
  rw [if_neg (border_not_in_scatter_footprint src.width src.height p q hw7 hh7 hb)]

theorem generateMirrored_width (src : Surface) (scaleHalf : Surface → ℕ → ℕ → Pixel) :
    (generateMirrored src scaleHalf).width = src.width := rfl

theorem generateMirrored_height (src : Surface) (scaleHalf : Surface → ℕ → ℕ → Pixel) :
    (generateMirrored src scaleHalf).height = src.height := rfl

theorem patchStep_width (src base : Surface) (patchRasters : ℕ → ℕ → ℕ → Pixel)
    (rand : ℕ → ℚ) (out : Surface) (i : ℕ) :
    (patchStep src base patchRasters rand out i).width = out.width := by
  unfold patchStep
  split <;> rfl

theorem patchStep_height (src base : Surface) (patchRasters : ℕ → ℕ → ℕ → Pixel)
    (rand : ℕ → ℚ) (out : Surface) (i : ℕ) :
    (patchStep src base patchRasters rand out i).height = out.height := by
  unfold patchStep
  split <;> rfl

theorem foldl_patchStep_width (src base : Surface) (patchRasters : ℕ → ℕ → ℕ → Pixel)
    (rand : ℕ → ℚ) (L : List ℕ) (out : Surface) :
    (L.foldl (patchStep src base patchRasters rand) out).width = out.width := by
  induction L generalizing out with
  | nil => rfl
  | cons i L ih => rw [List.foldl_cons, ih, patchStep_width]

theorem foldl_patchStep_height (src base : Surface) (patchRasters : ℕ → ℕ → ℕ → Pixel)
    (rand : ℕ → ℚ) (L : List ℕ) (out : Surface) :
    (L.foldl (patchStep src base patchRasters rand) out).height = out.height := by
  induction L generalizing out with
  | nil => rfl
  | cons i L ih => rw [List.foldl_cons, ih, patchStep_height]

theorem generatePatchBased_width (src : Surface) (scatterRaster : ℕ → ℕ → Pixel)
    (patchRasters : ℕ → ℕ → ℕ → Pixel) (rand : ℕ → ℚ) :
    (generatePatchBased src scatterRaster patchRasters rand).width = src.width := by
  unfold generatePatchBased
  rw [foldl_patchStep_width]
  rfl

theorem generatePatchBased_height (src : Surface) (scatterRaster : ℕ → ℕ → Pixel)
    (patchRasters : ℕ → ℕ → ℕ → Pixel) (rand : ℕ → ℚ) :
    (generatePatchBased src scatterRaster patchRasters rand).height = src.height := by
  unfold generatePatchBased
  rw [foldl_patchStep_height]
  rfl

/-- Once both dimensions are at least 40, `w - size - 20` is nonnegative for
every admissible random size, so `dx, dy ≥ 10` and `dx + size ≤ w - 10`: no
patch footprint reaches the outermost row or column.  Below 40 this fails —
`w - size - 20` turns negative and `dx` drops under 10. -/
theorem border_not_in_patch_footprint (w h : ℕ) (rand : ℕ → ℚ) (i p q : ℕ)
    (hw : 40 ≤ w) (hh : 40 ≤ h) (hrand : ∀ j, 0 ≤ rand j ∧ rand j < 1)
    (hb : p = 0 ∨ p = w - 1 ∨ q = 0 ∨ q = h - 1) :
    ¬ inDrawFootprint (patchDx w h rand i) (patchDy w h rand i)
        ⌊patchSize w h rand i⌋ ⌊patchSize w h rand i⌋ p q := by
  have hwq : (40 : ℚ) ≤ (w : ℚ) := by exact_mod_cast hw
  have hhq : (40 : ℚ) ≤ (h : ℚ) := by exact_mod_cast hh
  have hminw : ((min w h : ℕ) : ℚ) ≤ (w : ℚ) := by exact_mod_cast Nat.min_le_left w h
  have hminh : ((min w h : ℕ) : ℚ) ≤ (h : ℚ) := by exact_mod_cast Nat.min_le_right w h
  have hmin0 : (0 : ℚ) ≤ ((min w h : ℕ) : ℚ) := by positivity
  have hs0 : 0 ≤ patchSize w h rand i := by
    rw [patchSize, patchMinSize, patchMaxSize]
    have h1 := (hrand (5 * i)).1
    nlinarith
  have hsw : patchSize w h rand i ≤ (w : ℚ) * (5 / 10) := by
    rw [patchSize, patchMinSize, patchMaxSize]
    have h1 := (hrand (5 * i)).1
    have h2 := (hrand (5 * i)).2
    nlinarith
  have hsh : patchSize w h rand i ≤ (h : ℚ) * (5 / 10) := by
    rw [patchSize, patchMinSize, patchMaxSize]
    have h1 := (hrand (5 * i)).1
    have h2 := (hrand (5 * i)).2
    nlinarith
  have hAx : 0 ≤ (w : ℚ) - patchSize w h rand i - 20 := by linarith
  have hAy : 0 ≤ (h : ℚ) - patchSize w h rand i - 20 := by linarith
  have hdx10 : 10 ≤ patchDx w h rand i := by
    rw [patchDx]
    have h1 := (hrand (5 * i + 3)).1
    nlinarith
  have hdy10 : 10 ≤ patchDy w h rand i := by
    rw [patchDy]
    have h1 := (hrand (5 * i + 4)).1
    nlinarith
  have hdxr : patchDx w h rand i + patchSize w h rand i ≤ (w : ℚ) - 10 := by
    rw [patchDx]
    have h1 := (hrand (5 * i + 3)).1
    have h2 := (hrand (5 * i + 3)).2
    nlinarith
  have hdyr : patchDy w h rand i + patchSize w h rand i ≤ (h : ℚ) - 10 := by
    rw [patchDy]
    have h1 := (hrand (5 * i + 4)).1
    have h2 := (hrand (5 * i + 4)).2
    nlinarith
  have hfs : (⌊patchSize w h rand i⌋ : ℚ) ≤ patchSize w h rand i := Int.floor_le _
  intro hf
  obtain ⟨h1, h2, h3, h4⟩ := hf
  rcases hb with rfl | rfl | rfl | rfl
  · push_cast at h1
    linarith
  · have hc : ((w - 1 : ℕ) : ℚ) = (w : ℚ) - 1 := by
      push_cast [Nat.cast_sub (by omega : 1 ≤ w)]
      ring
    rw [hc] at h2
    linarith
  · push_cast at h3
    linarith
  · have hc : ((h - 1 : ℕ) : ℚ) = (h : ℚ) - 1 := by
      push_cast [Nat.cast_sub (by omega : 1 ≤ h)]
      ring
    rw [hc] at h4
    linarith

theorem patchStep_pix_of_ne_zero (src base : Surface) (patchRasters : ℕ → ℕ → ℕ → Pixel)
    (rand : ℕ → ℚ) (out : Surface) (i p q : ℕ) (hi : i ≠ 0)
    (hfoot : ¬ inDrawFootprint (patchDx src.width src.height rand i)
        (patchDy src.width src.height rand i) ⌊patchSize src.width src.height rand i⌋
        ⌊patchSize src.width src.height rand i⌋ p q) :
    (patchStep src base patchRasters rand out i).pix p q = out.pix p q := by
  unfold patchStep
  simp only [if_neg hi, if_neg hfoot]

/-- Any run of patch-loop iterations with positive indices leaves every
pixel of the outermost rows and columns untouched (dimensions at least 40,
admissible randomness). -/
theorem foldl_patchStep_border (src base : Surface) (patchRasters : ℕ → ℕ → ℕ → Pixel)
    (rand : ℕ → ℚ) (hw : 40 ≤ src.width) (hh : 40 ≤ src.height)
    (hrand : ∀ j, 0 ≤ rand j ∧ rand j < 1) (p q : ℕ)
    (hb : p = 0 ∨ p = src.width - 1 ∨ q = 0 ∨ q = src.height - 1)
    (L : List ℕ) (hL : ∀ i ∈ L, i ≠ 0) (out : Surface) :
    (L.foldl (patchStep src base patchRasters rand) out).pix p q = out.pix p q := by
  induction L generalizing out with
  | nil => rfl
  | cons i L ih =>
    rw [List.foldl_cons, ih (fun j hj => hL j (List.mem_cons_of_mem i hj)),
      patchStep_pix_of_ne_zero src base patchRasters rand out i p q
        (hL i (List.mem_cons_self i L))
        (border_not_in_patch_footprint src.width src.height rand i p q hw hh hrand hb)]

/-- Border pixels of the PatchBased output: the full source copy is
composited with the Scattered base on iteration 0 and no patch ever reaches
the outermost rows and columns (dimensions at least 40), so every border
pixel equals the Scattered base source-over the source pixel, independently
of the random draws and of the patch rasterization. -/
theorem generatePatchBased_border_pix (src : Surface) (scatterRaster : ℕ → ℕ → Pixel)
    (patchRasters : ℕ → ℕ → ℕ → Pixel) (rand : ℕ → ℚ)
    (hw : 40 ≤ src.width) (hh : 40 ≤ src.height)
    (hrand : ∀ j, 0 ≤ rand j ∧ rand j < 1) (p q : ℕ)
    (hb : p = 0 ∨ p = src.width - 1 ∨ q = 0 ∨ q = src.height - 1)
    (hp : p < src.width) (hq : q < src.height) :
    (generatePatchBased src scatterRaster patchRasters rand).pix p q =
      Pixel.over ((generateScattered src scatterRaster).pix p q) (src.pix p q) := by
  unfold generatePatchBased
  rw [List.range_succ_eq_map 29, List.foldl_cons,
    foldl_patchStep_border _ _ _ _ hw hh hrand p q hb _
      (by
        intro i hi
        simp only [List.mem_map] at hi
        obtain ⟨j, _, rfl⟩ := hi
        exact Nat.succ_ne_zero j)]
  unfold patchStep
  simp only [if_pos rfl]
  rw [if_neg (border_not_in_patch_footprint src.width src.height rand 0 p q hw hh hrand hb)]
  simp only [if_true]
  show (drawImageRect (drawImageRect (createCanvas src.width src.height) src 0 0
      src.width src.height 0 0) (generateScattered src scatterRaster) 0 0
      (generateScattered src scatterRaster).width (generateScattered src scatterRaster).height
      0 0).pix p q = _
  rw [drawImageRect_full_pix
    (drawImageRect (createCanvas src.width src.height) src 0 0 src.width src.height 0 0)
    (generateScattered src scatterRaster) (le_refl _) (le_refl _) p q hp hq]
  rw [drawImageRect_full_pix (createCanvas src.width src.height) src (le_refl _) (le_refl _)
    p q hp hq]
  rw [show (createCanvas src.width src.height).pix p q = Pixel.zero from rfl, Pixel.over_zero]

theorem tileCellStep_width (tex : Surface) (markSeams : Bool) (acc : Surface) (rc : ℕ × ℕ) :
    (tileCellStep tex markSeams acc rc).width = acc.width := by
  unfold tileCellStep
  split <;> rfl

theorem tileCellStep_height (tex : Surface) (markSeams : Bool) (acc : Surface) (rc : ℕ × ℕ) :
    (tileCellStep tex markSeams acc rc).height = acc.height := by
  unfold tileCellStep
  split <;> rfl

theorem foldl_tileCellStep_width (tex : Surface) (markSeams : Bool) (L : List (ℕ × ℕ))
    (acc : Surface) :
    (L.foldl (tileCellStep tex markSeams) acc).width = acc.width := by
  induction L generalizing acc with
  | nil => rfl
  | cons rc L ih => rw [List.foldl_cons, ih, tileCellStep_width]

theorem foldl_tileCellStep_height (tex : Surface) (markSeams : Bool) (L : List (ℕ × ℕ))
    (acc : Surface) :
    (L.foldl (tileCellStep tex markSeams) acc).height = acc.height := by
  induction L generalizing acc with
  | nil => rfl
  | cons rc L ih => rw [List.foldl_cons, ih, tileCellStep_height]

theorem generateTilePreview_width (tex : Surface) (tileFormat : ℕ) (markSeams : Bool) :
    (generateTilePreview tex tileFormat markSeams).width = tex.width * tileFormat := by
  unfold generateTilePreview
  rw [foldl_tileCellStep_width]
  rfl

theorem generateTilePreview_height (tex : Surface) (tileFormat : ℕ) (markSeams : Bool) :
    (generateTilePreview tex tileFormat markSeams).height = tex.height * tileFormat := by
  unfold generateTilePreview
  rw [foldl_tileCellStep_height]
  rfl

/-- C1 (counterexample): the claim that the Scattered and PatchBased
outputs have their left edge column pixel-identical to their right edge
column is false.  On an opaque 20×20 surface whose columns differ, the
torus shift puts source column `w/2` on the left edge and source column
`w/2 - 1` on the right edge, so the two edges differ — for the Scattered
output and for the PatchBased output (whatever the patch rasterization,
here instantiated concretely, with every random draw equal to 1/2). -/
theorem C1_counterexample :
    ¬ ((generateScattered gray20 noRaster).pix 0 0 =
        (generateScattered gray20 noRaster).pix 19 0) ∧
    ¬ ((generatePatchBased gray20 noRaster noRasters halfRand).pix 0 0 =
        (generatePatchBased gray20 noRaster noRasters halfRand).pix 19 0) := by
  with_unfolding_all decide

/-- C1 (amended): for working surfaces of even dimensions at least 40, with
any admissible random stream and any opaque source, the border pixels of
the Scattered and PatchBased outputs are the half-period torus translate of
the source: the left edge column holds source column `w/2` and the right
edge column holds source column `w/2 - 1` (top and bottom rows likewise),
so the opposite edges are adjacent source columns/rows — seamless under
tiling — but not pixel-identical to each other. -/
theorem C1_amended_torus_borders (src : Surface) (patchRaster scatterRaster : ℕ → ℕ → Pixel)
    (patchRasters : ℕ → ℕ → ℕ → Pixel) (rand : ℕ → ℚ)
    (hw2 : 2 ∣ src.width) (hh2 : 2 ∣ src.height)
    (hw : 40 ≤ src.width) (hh : 40 ≤ src.height)
    (hrand : ∀ j, 0 ≤ rand j ∧ rand j < 1)
    (hop : ∀ p q, (src.pix p q).a = 1)
    (x y : ℕ) (hx : x < src.width) (hy : y < src.height) :
    ((generateScattered src patchRaster).pix 0 y =
        src.pix (src.width / 2) ((y + src.height / 2) % src.height) ∧
      (generateScattered src patchRaster).pix (src.width - 1) y =
        src.pix (src.width / 2 - 1) ((y + src.height / 2) % src.height) ∧
      (generateScattered src patchRaster).pix x 0 =
        src.pix ((x + src.width / 2) % src.width) (src.height / 2) ∧
      (generateScattered src patchRaster).pix x (src.height - 1) =
        src.pix ((x + src.width / 2) % src.width) (src.height / 2 - 1)) ∧
    ((generatePatchBased src scatterRaster patchRasters rand).pix 0 y =
        src.pix (src.width / 2) ((y + src.height / 2) % src.height) ∧
      (generatePatchBased src scatterRaster patchRasters rand).pix (src.width - 1) y =
        src.pix (src.width / 2 - 1) ((y + src.height / 2) % src.height) ∧
      (generatePatchBased src scatterRaster patchRasters rand).pix x 0 =
        src.pix ((x + src.width / 2) % src.width) (src.height / 2) ∧
      (generatePatchBased src scatterRaster patchRasters rand).pix x (src.height - 1) =
        src.pix ((x + src.width / 2) % src.width) (src.height / 2 - 1)) := by
  have h7w : 7 ≤ src.width := by omega
  have h7h : 7 ≤ src.height := by omega
  have hm0w : (0 + src.width / 2) % src.width = src.width / 2 := by
    rw [Nat.zero_add]
    exact Nat.mod_eq_of_lt (by omega)
  have hm0h : (0 + src.height / 2) % src.height = src.height / 2 := by
    rw [Nat.zero_add]
    exact Nat.mod_eq_of_lt (by omega)
  have hm1w : (src.width - 1 + src.width / 2) % src.width = src.width / 2 - 1 := by
    obtain ⟨a, ha⟩ := hw2
    rw [ha, show 2 * a / 2 = a by omega, Nat.mod_eq_sub_mod (by omega),
      show 2 * a - 1 + a - 2 * a = a - 1 by omega]
    exact Nat.mod_eq_of_lt (by omega)
  have hm1h : (src.height - 1 + src.height / 2) % src.height = src.height / 2 - 1 := by
    obtain ⟨b, hb⟩ := hh2
    rw [hb, show 2 * b / 2 = b by omega, Nat.mod_eq_sub_mod (by omega),
      show 2 * b - 1 + b - 2 * b = b - 1 by omega]
    exact Nat.mod_eq_of_lt (by omega)
  have hsc : ∀ p q, (p = 0 ∨ p = src.width - 1 ∨ q = 0 ∨ q = src.height - 1) →
      p < src.width → q < src.height →
      (generateScattered src patchRaster).pix p q =
        src.pix ((p + src.width / 2) % src.width) ((q + src.height / 2) % src.height) := by
    intro p q hb hp hq
    rw [generateScattered_pix_border src patchRaster h7w h7h p q hb,
      quadrantSwap_pix_even src hw2 hh2 p q hp hq]
  have hsc2 : ∀ p q, (p = 0 ∨ p = src.width - 1 ∨ q = 0 ∨ q = src.height - 1) →
      p < src.width → q < src.height →
      (generateScattered src scatterRaster).pix p q =
        src.pix ((p + src.width / 2) % src.width) ((q + src.height / 2) % src.height) := by
    intro p q hb hp hq
    rw [generateScattered_pix_border src scatterRaster h7w h7h p q hb,
      quadrantSwap_pix_even src hw2 hh2 p q hp hq]
  have hpb : ∀ p q, (p = 0 ∨ p = src.width - 1 ∨ q = 0 ∨ q = src.height - 1) →
      p < src.width → q < src.height →
      (generatePatchBased src scatterRaster patchRasters rand).pix p q =
        src.pix ((p + src.width / 2) % src.width) ((q + src.height / 2) % src.height) := by
    intro p q hb hp hq
    rw [generatePatchBased_border_pix src scatterRaster patchRasters rand hw hh hrand p q hb
      hp hq, hsc2 p q hb hp hq, Pixel.over_of_opaque _ _ (hop _ _)]
  refine ⟨⟨?_, ?_, ?_, ?_⟩, ?_, ?_, ?_, ?_⟩
  · rw [hsc 0 y (Or.inl rfl) (by omega) hy, hm0w]
  · rw [hsc (src.width - 1) y (Or.inr (Or.inl rfl)) (by omega) hy, hm1w]
  · rw [hsc x 0 (Or.inr (Or.inr (Or.inl rfl))) hx (by omega), hm0h]
  · rw [hsc x (src.height - 1) (Or.inr (Or.inr (Or.inr rfl))) hx (by omega), hm1h]
  · rw [hpb 0 y (Or.inl rfl) (by omega) hy, hm0w]
  · rw [hpb (src.width - 1) y (Or.inr (Or.inl rfl)) (by omega) hy, hm1w]
  · rw [hpb x 0 (Or.inr (Or.inr (Or.inl rfl))) hx (by omega), hm0h]
  · rw [hpb x (src.height - 1) (Or.inr (Or.inr (Or.inr rfl))) hx (by omega), hm1h]

/-- C1 (witness): the amended border description evaluated on the opaque
40×40 white surface with the constant-1/2 random stream. -/
theorem C1_amended_torus_borders_witness :
    (2 ∣ white40.width ∧ 2 ∣ white40.height ∧ 40 ≤ white40.width ∧ 40 ≤ white40.height ∧
      0 < white40.width ∧ 0 < white40.height) ∧
    (((generateScattered white40 noRaster).pix 0 0 =
        white40.pix (white40.width / 2) ((0 + white40.height / 2) % white40.height) ∧
      (generateScattered white40 noRaster).pix (white40.width - 1) 0 =
        white40.pix (white40.width / 2 - 1) ((0 + white40.height / 2) % white40.height) ∧
      (generateScattered white40 noRaster).pix 0 0 =
        white40.pix ((0 + white40.width / 2) % white40.width) (white40.height / 2) ∧
      (generateScattered white40 noRaster).pix 0 (white40.height - 1) =
        white40.pix ((0 + white40.width / 2) % white40.width) (white40.height / 2 - 1)) ∧
    ((generatePatchBased white40 noRaster noRasters halfRand).pix 0 0 =
        white40.pix (white40.width / 2) ((0 + white40.height / 2) % white40.height) ∧
      (generatePatchBased white40 noRaster noRasters halfRand).pix (white40.width - 1) 0 =
        white40.pix (white40.width / 2 - 1) ((0 + white40.height / 2) % white40.height) ∧
      (generatePatchBased white40 noRaster noRasters halfRand).pix 0 0 =
        white40.pix ((0 + white40.width / 2) % white40.width) (white40.height / 2) ∧
      (generatePatchBased white40 noRaster noRasters halfRand).pix 0 (white40.height - 1) =
        white40.pix ((0 + white40.width / 2) % white40.width) (white40.height / 2 - 1))) :=
  ⟨⟨⟨20, rfl⟩, ⟨20, rfl⟩, by decide, by decide, by decide, by decide⟩,
   C1_amended_torus_borders white40 noRaster noRaster noRasters halfRand ⟨20, rfl⟩ ⟨20, rfl⟩
     (by decide) (by decide) (fun j => ⟨by norm_num [halfRand], by norm_num [halfRand]⟩)
     (fun p q => rfl) 0 0 (by decide) (by decide)⟩

/-- C2: for every working surface and every downscaling resampler, the
Mirrored output's pixel at `(0, y)` equals the pixel at `(W-1, y)` and the
pixel at `(x, 0)` equals the pixel at `(x, H-1)`, with exact pixel
equality: the four mirrored placements of the same scaled image make the
outer columns (rows) reflections of each other. -/
theorem C2_mirrored_edge_symmetry (src : Surface) (scaleHalf : Surface → ℕ → ℕ → Pixel)
    (x y : ℕ) (hx : x < src.width) (hy : y < src.height) :
    (generateMirrored src scaleHalf).pix 0 y =
      (generateMirrored src scaleHalf).pix (src.width - 1) y ∧
    (generateMirrored src scaleHalf).pix x 0 =
      (generateMirrored src scaleHalf).pix x (src.height - 1) := by
  unfold generateMirrored
  constructor
  · dsimp only
    congr 1
    omega
  · dsimp only
    congr 1
    omega

/-- C2 (witness): the Mirrored edge equalities evaluated on the opaque 4×4
black surface with a concrete point-sampling resampler. -/
theorem C2_mirrored_edge_symmetry_witness :
    (1 < mir4.width ∧ 2 < mir4.height) ∧
    ((generateMirrored mir4 idScale).pix 0 2 =
      (generateMirrored mir4 idScale).pix (mir4.width - 1) 2 ∧
    (generateMirrored mir4 idScale).pix 1 0 =
      (generateMirrored mir4 idScale).pix 1 (mir4.height - 1)) :=
  ⟨by decide, C2_mirrored_edge_symmetry mir4 idScale 1 2 (by decide) (by decide)⟩

/-- C3 (counterexample): the claim that the border pixels of the PatchBased
output equal those of its Scattered base is false: the source is drawn
first and the base is composited source-over on top of it, so where the
base is not opaque the source shows through.  On a 40×40 surface whose
centre pixel is half-transparent, the torus shift puts that pixel on the
output corner, and the PatchBased corner differs from the base's corner
(random draws all 1/2; no patch reaches the border at this size). -/
theorem C3_counterexample :
    ¬ ((generatePatchBased redGhost40 noRaster noRasters halfRand).pix 0 0 =
        (generateScattered redGhost40 noRaster).pix 0 0) := by
  with_unfolding_all decide

/-- C3 (amended): for working surfaces with both dimensions at least 40 and
any admissible random streams, no patch composite changes any pixel of the
outermost rows or columns: every border pixel of the PatchBased output
equals the Scattered base composited source-over the source copy (hence
equals the base pixel wherever the base is opaque), and two invocations
with different random draws and rasterizations produce pixel-identical
borders. -/
theorem C3_amended_border_determinism (src : Surface) (scatterRaster : ℕ → ℕ → Pixel)
    (patchRasters1 patchRasters2 : ℕ → ℕ → ℕ → Pixel) (rand1 rand2 : ℕ → ℚ)
    (hw : 40 ≤ src.width) (hh : 40 ≤ src.height)
    (hr1 : ∀ j, 0 ≤ rand1 j ∧ rand1 j < 1) (hr2 : ∀ j, 0 ≤ rand2 j ∧ rand2 j < 1)
    (p q : ℕ) (hb : p = 0 ∨ p = src.width - 1 ∨ q = 0 ∨ q = src.height - 1)
    (hp : p < src.width) (hq : q < src.height) :
    (generatePatchBased src scatterRaster patchRasters1 rand1).pix p q =
      Pixel.over ((generateScattered src scatterRaster).pix p q) (src.pix p q) ∧
    (generatePatchBased src scatterRaster patchRasters1 rand1).pix p q =
      (generatePatchBased src scatterRaster patchRasters2 rand2).pix p q := by
  have k1 := generatePatchBased_border_pix src scatterRaster patchRasters1 rand1 hw hh hr1
    p q hb hp hq
  have k2 := generatePatchBased_border_pix src scatterRaster patchRasters2 rand2 hw hh hr2
    p q hb hp hq
  exact ⟨k1, by rw [k1, k2]⟩

/-- C3 (witness): the amended border determinism evaluated at the corner of
the opaque 40×40 white surface with the constant-1/2 random stream. -/
theorem C3_amended_border_determinism_witness :
    (40 ≤ white40.width ∧ 40 ≤ white40.height ∧ 0 < white40.width ∧ 0 < white40.height) ∧
    ((generatePatchBased white40 noRaster noRasters halfRand).pix 0 0 =
      Pixel.over ((generateScattered white40 noRaster).pix 0 0) (white40.pix 0 0) ∧
    (generatePatchBased white40 noRaster noRasters halfRand).pix 0 0 =
      (generatePatchBased white40 noRaster noRasters halfRand).pix 0 0) :=
  ⟨⟨by decide, by decide, by decide, by decide⟩,
   C3_amended_border_determinism white40 noRaster noRasters noRasters halfRand halfRand
     (by decide) (by decide) (fun j => ⟨by norm_num [halfRand], by norm_num [halfRand]⟩)
     (fun j => ⟨by norm_num [halfRand], by norm_num [halfRand]⟩) 0 0 (Or.inl rfl)
     (by decide) (by decide)⟩

/-- C4 (counterexample): the claim that half-sizes are floored, the last
quadrant absorbs the remainder and the four quadrant blits exactly
partition the output is false for odd dimensions: the source uses
`Math.round(w / 2)`, which rounds 3/2 up to 2 (not down to 1), and on a
3×3 surface the centre pixel `(1, 1)` is written by none of the four blits
(the claim says exactly one). -/
theorem C4_counterexample : countWrites testSrc3 1 1 = 0 ∧ halfRound 3 = 2 := by decide

/-- C4 (amended): `Math.round(w / 2)` coincides with the floored half
exactly when the dimension is even, and for surfaces of even width and
height the four quadrant blits of the torus-shift step write every output
pixel exactly once (an exact partition, no gap and no overlap). -/
theorem C4_amended_even_partition (src : Surface) (hw2 : 2 ∣ src.width) (hh2 : 2 ∣ src.height)
    (p q : ℕ) (hp : p < src.width) (hq : q < src.height) :
    countWrites src p q = 1 ∧ halfRound src.width = src.width / 2 := by
  constructor
  · obtain ⟨a, ha⟩ := hw2
    obtain ⟨b, hb⟩ := hh2
    unfold countWrites writesAt halfRound createCanvas
    simp only [ha, hb] at *
    split_ifs <;> omega
  · obtain ⟨a, ha⟩ := hw2
    unfold halfRound
    omega

/-- C4 (witness): the even-dimension partition evaluated on the 4×4 surface
at pixel (1, 1). -/
theorem C4_amended_even_partition_witness :
    (2 ∣ mir4.width ∧ 2 ∣ mir4.height ∧ 1 < mir4.width ∧ 1 < mir4.height) ∧
    (countWrites mir4 1 1 = 1 ∧ halfRound mir4.width = mir4.width / 2) :=
  ⟨by decide, C4_amended_even_partition mir4 (by decide) (by decide) 1 1 (by decide) (by decide)⟩

/-- C5: whenever `left + right ≥ width` or `top + bottom ≥ height`, the
crop stage of the pipeline returns its input surface unchanged (the
degenerate crop yields `null` and the pipeline keeps the previous canvas,
so it never fails on such settings). -/
theorem C5_degenerate_crop_noop (s : Surface) (crop : CropSettings)
    (h : s.width ≤ crop.left + crop.right ∨ s.height ≤ crop.top + crop.bottom) :
    cropStage s crop = s := by
  have hnone : applyCrop s crop = none := by
    unfold applyCrop
    rw [if_pos (by rcases h with h | h
                   · left; omega
                   · right; omega)]
  unfold cropStage
  split
  · rw [hnone]
  · rfl

/-- C5 (witness): cropping 2 pixels from both the left and the right of a
4-pixel-wide surface leaves it untouched. -/
theorem C5_degenerate_crop_noop_witness :
    (mir4.width ≤ 2 + 2) ∧ cropStage mir4 ⟨0, 0, 2, 2⟩ = mir4 :=
  ⟨by decide, C5_degenerate_crop_noop mir4 ⟨0, 0, 2, 2⟩ (Or.inl (by decide))⟩

/-- C6 (counterexample): the claim that averaging with intensity 100
returns a surface pixel-identical to the blurred copy is false: the stage
composites the blurred copy source-over the original, and the blur spreads
the alpha channel, so at border pixels the blurred copy is not opaque and
the original shows through.  On an opaque 1×1 white surface with radius 1,
the blurred pixel has alpha 1/9 while the stage's output pixel is opaque
white. -/
theorem C6_counterexample :
    ¬ ((applyAveraging boxBlur white1 ⟨100, 1⟩).pix 0 0 = (boxBlur white1 1).pix 0 0) := by
  with_unfolding_all decide

/-- C6 (amended): with intensity 100 the averaging stage composites the
blurred copy over the original at full alpha, so each in-bounds pixel of
the result is the blurred pixel source-over the original pixel; the result
equals the blurred copy exactly at pixels where the blurred copy is fully
opaque, but where blurring has reduced alpha (near the borders) original
content is retained. -/
theorem C6_amended_full_intensity_blend (blur : Surface → ℚ → Surface) (canvas : Surface)
    (radius : ℚ) (p q : ℕ) (hp : p < canvas.width) (hq : q < canvas.height) :
    (applyAveraging blur canvas ⟨100, radius⟩).pix p q =
      Pixel.over ((blur canvas radius).pix p q) (canvas.pix p q) ∧
    (((blur canvas radius).pix p q).a = 1 →
      (applyAveraging blur canvas ⟨100, radius⟩).pix p q = (blur canvas radius).pix p q) := by
  have key : (applyAveraging blur canvas ⟨100, radius⟩).pix p q =
      Pixel.over ((blur canvas radius).pix p q) (canvas.pix p q) := by
    unfold applyAveraging
    rw [if_neg (by norm_num)]
    dsimp only
    rw [if_pos ⟨hp, hq⟩]
    rw [drawImageRect_full_pix (createCanvas canvas.width canvas.height) canvas (le_refl _)
      (le_refl _) p q hp hq]
    rw [show (createCanvas canvas.width canvas.height).pix p q = Pixel.zero from rfl,
      Pixel.over_zero]
    rw [show (100 : ℚ) / 100 = 1 by norm_num, Pixel.scale_one]
  exact ⟨key, fun ho => by rw [key, Pixel.over_of_opaque _ _ ho]⟩

/-- C6 (witness): the full-intensity blend evaluated on the 1×1 white
surface with a concrete opacity-preserving blur, where the second part
applies and the output equals the blurred copy. -/
theorem C6_amended_full_intensity_blend_witness :
    (0 < white1.width ∧ 0 < white1.height) ∧
    ((applyAveraging idBlur white1 ⟨100, 1⟩).pix 0 0 =
      Pixel.over ((idBlur white1 1).pix 0 0) (white1.pix 0 0) ∧
    (((idBlur white1 1).pix 0 0).a = 1 →
      (applyAveraging idBlur white1 ⟨100, 1⟩).pix 0 0 = (idBlur white1 1).pix 0 0)) :=
  ⟨by decide, C6_amended_full_intensity_blend idBlur white1 1 0 0 (by decide) (by decide)⟩

/-- C7: each synthesis strategy returns a surface of exactly the input's
size (the model is a pure function, so no input is mutated), the tile
preview measures `width·N × height·N`, and the `ProcessResult` width and
height fields equal the seamless texture's dimensions while its preview
field carries the `N`-fold dimensions. -/
theorem C7_dimensions_preserved (src tex img : Surface) (scaleHalf : Surface → ℕ → ℕ → Pixel)
    (patchRaster scatterRaster : ℕ → ℕ → Pixel) (patchRasters : ℕ → ℕ → ℕ → Pixel)
    (rand : ℕ → ℚ) (tileFormat : ℕ) (markSeams : Bool) (method : String)
    (crop : CropSettings) (averaging : AveragingSettings) (blur : Surface → ℚ → Surface) :
    (generateMirrored src scaleHalf).width = src.width ∧
    (generateMirrored src scaleHalf).height = src.height ∧
    (generateScattered src patchRaster).width = src.width ∧
    (generateScattered src patchRaster).height = src.height ∧
    (generatePatchBased src scatterRaster patchRasters rand).width = src.width ∧
    (generatePatchBased src scatterRaster patchRasters rand).height = src.height ∧
    (generateTilePreview tex tileFormat markSeams).width = tex.width * tileFormat ∧
    (generateTilePreview tex tileFormat markSeams).height = tex.height * tileFormat ∧
    (processTexture img method tileFormat markSeams crop averaging blur scaleHalf patchRaster
        scatterRaster patchRasters rand).width =
      (processTexture img method tileFormat markSeams crop averaging blur scaleHalf patchRaster
        scatterRaster patchRasters rand).seamless.width ∧
    (processTexture img method tileFormat markSeams crop averaging blur scaleHalf patchRaster
        scatterRaster patchRasters rand).height =
      (processTexture img method tileFormat markSeams crop averaging blur scaleHalf patchRaster
        scatterRaster patchRasters rand).seamless.height ∧
    (processTexture img method tileFormat markSeams crop averaging blur scaleHalf patchRaster
        scatterRaster patchRasters rand).preview.width =
      (processTexture img method tileFormat markSeams crop averaging blur scaleHalf patchRaster
        scatterRaster patchRasters rand).seamless.width * tileFormat ∧
    (processTexture img method tileFormat markSeams crop averaging blur scaleHalf patchRaster
        scatterRaster patchRasters rand).preview.height =
      (processTexture img method tileFormat markSeams crop averaging blur scaleHalf patchRaster
        scatterRaster patchRasters rand).seamless.height * tileFormat :=
  ⟨rfl, rfl, rfl, rfl,
   generatePatchBased_width src scatterRaster patchRasters rand,
   generatePatchBased_height src scatterRaster patchRasters rand,
   generateTilePreview_width tex tileFormat markSeams,
   generateTilePreview_height tex tileFormat markSeams,
   rfl, rfl,
   generateTilePreview_width _ tileFormat markSeams,
   generateTilePreview_height _ tileFormat markSeams⟩

/-- C8 (counterexample): the claim that the tile assembler with seam
markers equals "all blits first, then all boundary rectangles" is false for
N = 2: a 1-pixel-wide stroke straddles its path by half a pixel, so a
cell's marker reaches half a pixel into the next cell, where the next
cell's blit overdraws it; drawing all markers after all blits instead
leaves that half-pixel double-stroked.  On a 2×2 green texture at N = 2 the
two orders differ at pixel (2, 0). -/
theorem C8_counterexample :
    ¬ (generateTilePreview green2 2 true = tilePreviewStrokesAfter green2 2 true) := by
  intro h
  have h2 := congrArg (fun s => s.pix 2 0) h
  revert h2
  with_unfolding_all decide

/-- C8 (amended): the markers are drawn interleaved with the blits (each
cell's boundary immediately after that cell's blit); with a single cell
(N = 1) no later blit exists to overdraw a marker, and the interleaved
order coincides with the blits-then-markers order, whether or not seams are
marked. -/
theorem C8_amended_single_cell_order (tex : Surface) (markSeams : Bool) :
    generateTilePreview tex 1 markSeams = tilePreviewStrokesAfter tex 1 markSeams := by
  cases markSeams <;> rfl

/-- C9: the averaging stage with intensity 0 is a complete no-op: both
`applyAveraging` itself (guard `intensity <= 0`) and the pipeline's
pre-averaging block (guard `intensity > 0`) return the input surface,
computing no blur. -/
theorem C9_zero_intensity_noop (blur : Surface → ℚ → Surface) (s : Surface) (radius : ℚ) :
    applyAveraging blur s ⟨0, radius⟩ = s ∧ averagingStage blur s ⟨0, radius⟩ = s := by
  constructor
  · unfold applyAveraging
    simp
  · unfold averagingStage
    simp

/-- C10: the strategy dispatch is total with Scattered as the default: any
method string other than the MIRRORED and PATCH_BASED enum values —
including values outside the declared enum — selects the Scattered
strategy. -/
theorem C10_default_dispatch (method : String) (working : Surface)
    (scaleHalf : Surface → ℕ → ℕ → Pixel) (patchRaster scatterRaster : ℕ → ℕ → Pixel)
    (patchRasters : ℕ → ℕ → ℕ → Pixel) (rand : ℕ → ℚ)
    (h1 : method ≠ SeamlessMethod.MIRRORED) (h2 : method ≠ SeamlessMethod.PATCH_BASED) :
    chooseSeamless method working scaleHalf patchRaster scatterRaster patchRasters rand =
      generateScattered working patchRaster := by
  unfold chooseSeamless
  rw [if_neg h1, if_neg h2]

/-- C10 (witness): a value outside the declared enum selects Scattered. -/
theorem C10_default_dispatch_witness :
    ("bogus" ≠ SeamlessMethod.MIRRORED ∧ "bogus" ≠ SeamlessMethod.PATCH_BASED) ∧
    chooseSeamless "bogus" mir4 idScale noRaster noRaster noRasters halfRand =
      generateScattered mir4 noRaster :=
  ⟨⟨by decide, by decide⟩,
   C10_default_dispatch "bogus" mir4 idScale noRaster noRaster noRasters halfRand
     (by decide) (by decide)⟩
